import Mathlib

/-!
Shallow embedding of the session / media-pipeline controller of
`src/liveClient.ts` (class `LiveClient`) for the repository
"Aryan - AI Human Assistant".

Conventions of the embedding:
* The browser millisecond clock (`Date.now()`) is passed in as a `Nat`
  parameter `now`; WebAudio output-clock readings (`AudioContext.currentTime`)
  are rationals, stored in the context model and updated by the environment
  between calls.
* Side effects (callbacks `onStateChange`, `onLog`, `onVolume`,
  `onToolAction`, transport sends, `window.open`, theme events,
  `console.error`) are accumulated as an ordered `List Event` trace.
* Awaiting a promise (`await this.currentSession`, `.then/.catch`) is
  modelled by an `Except String Unit` parameter describing how the awaited
  promise settles; browser calls that may throw inside a `try` block are
  modelled the same way.
* Fallible code returns `Except`; a JS `try { } catch { }` is an explicit
  total match on the `Except`.
-/

namespace AryanLive

/-- Connection lifecycle states (`ConnectionState` from types.ts, as used by
`liveClient.ts` and `App.tsx`). -/
inductive ConnectionState where
  | DISCONNECTED
  | CONNECTING
  | CONNECTED
  | ERROR
deriving DecidableEq, Repr

/-- A log entry as constructed by `liveClient.ts`:
`{ id, timestamp, source, message, type? }` where `id` is
`Date.now().toString()` (or the tool-call id), `timestamp` is `new Date()`
(modelled by the millisecond clock), `source` is one of
`user | ai | system | error`, and `type` is the optional `tool` tag. -/
structure LogEntry where
  id : String
  timestamp : Nat
  source : String
  message : String
  type : Option String := none
deriving DecidableEq, Repr

/-- The result object built by `handleToolCall`: the ok-status default,
`{result: s}`, `{time: s}` or `{error: s}`. -/
inductive ToolResult where
  | statusOk
  | result (s : String)
  | time (s : String)
  | error (s : String)
deriving DecidableEq, Repr

/-- Observable effects of the controller, in program order. -/
inductive Event where
  | stateChange (s : ConnectionState)
  | log (e : LogEntry)
  | volume (v : ℚ)
  | toolAction (a : String)
  | sendRealtimeInput (mimeType : String) (data : String)
  | sendToolResponse (id name : String) (response : ToolResult)
  | sourceStart (t : ℚ)
  | windowOpen (url : String)
  | dispatchThemeChange (mode : String)
  | consoleError (m : String)
deriving DecidableEq, Repr

/-- The slice of a WebAudio `AudioContext` the controller reads: its
monotonic output clock `currentTime`. -/
structure AudioContextModel where
  currentTime : ℚ
deriving DecidableEq, Repr

/-- A decoded `AudioBuffer`; the scheduler only reads its `duration`. -/
structure AudioBuffer where
  duration : ℚ
deriving DecidableEq, Repr

/-- An `AudioBufferSourceNode` held in the live-source set `this.sources`:
its scheduled start time, the duration of its buffer, and whether playback has
already finished (used to model `stop()` on a finished node). -/
structure AudioBufferSourceNode where
  startTime : ℚ
  duration : ℚ
  finished : Bool
deriving DecidableEq, Repr

/-- One entry of `toolCall.functionCalls`: `{id, name, args}`. Arguments are
a string-keyed map of string values. -/
structure FunctionCall where
  id : String
  name : String
  args : List (String × String)
deriving DecidableEq, Repr

/-- JS property access `(fc.args as any).url`: a missing key reads as
`undefined`, which stringifies to "undefined" in the template literals. -/
def FunctionCall.getArg (fc : FunctionCall) (key : String) : String :=
  (fc.args.lookup key).getD "undefined"

/-- The mutable fields of class `LiveClient`. Nullable object fields become
`Option`/`Bool` presence flags; `currentSession` is `true` when the field
holds a pending/settled promise and `false` when it is `null`. -/
structure LiveClient where
  ai : Bool
  inputAudioContext : Option AudioContextModel
  outputAudioContext : Option AudioContextModel
  inputSource : Bool
  processor : Bool
  nextStartTime : ℚ
  sources : List AudioBufferSourceNode
  currentSession : Bool
deriving DecidableEq, Repr

/-- An inbound `LiveServerMessage` after the classification performed in
`handleMessage`: the optional first inline audio payload, the
`interrupted` / `turnComplete` flags, and an optional tool call. Each
function call is paired with the `Except` outcome of the browser call its
handler performs (whether it throws). -/
structure LiveServerMessage where
  inlineData : Option String := none
  interrupted : Bool := false
  turnComplete : Bool := false
  toolCall : Option (List (FunctionCall × Except String Unit)) := none

/-- Environment of one `handleMessage` run: the millisecond clock, the
result of `new Date().toLocaleString()`, the outcome of `decodeAudioData`,
and how `this.currentSession` settles when awaited for the tool response. -/
structure MsgEnv where
  now : Nat
  nowString : String
  decodeResult : Except String AudioBuffer
  sessionAwait : Except String Unit

/-- `onLog({ id: Date.now().toString(), timestamp: new Date(), source, message })`. -/
def makeLog (now : Nat) (source message : String) : LogEntry :=
  { id := toString now, timestamp := now, source := source, message := message }

/-- UTF-8 bytes of a string (`new TextEncoder().encode(text)`). -/
def textEncode (s : String) : List Nat :=
  s.toUTF8.toList.map (fun b => b.toNat)

/-- The base64 alphabet used by `btoa`. -/
def b64Char (n : Nat) : Char :=
  "ABCDEFGHIJKLMNOPQRSTUVWXYZabcdefghijklmnopqrstuvwxyz0123456789+/".toList.getD n 'A'

/-- Modelled from the spec: the binary-to-text transport encoding
(`btoa` / `arrayBufferToBase64` live in utils/audio, which is not under
src/). Standard base64 with '=' padding over a byte list. -/
def base64Encode : List Nat → List Char
  | [] => []
  | [a] => [b64Char (a / 4), b64Char (a % 4 * 16), '=', '=']
  | [a, b] => [b64Char (a / 4), b64Char (a % 4 * 16 + b / 16), b64Char (b % 16 * 4), '=']
  | a :: b :: c :: rest =>
      b64Char (a / 4) :: b64Char (a % 4 * 16 + b / 16) ::
        b64Char (b % 16 * 4 + c / 64) :: b64Char (c % 64) :: base64Encode rest

/-- JS `ToInteger` truncation toward zero of a rational. -/
def jsTrunc (q : ℚ) : Int :=
  if q < 0 then -(⌊-q⌋) else ⌊q⌋

/-- JS `ToInt16`: truncate, then wrap into the signed 16-bit range (the
conversion applied by an `Int16Array` element store). -/
def toInt16 (q : ℚ) : Int :=
  (jsTrunc q + 32768) % 65536 - 32768

/-- One sample of the `createPcmBlob` loop:
`const s = Math.max(-1, Math.min(1, data[i])); int16[i] = s < 0 ? s * 0x8000 : s * 0x7FFF;`. -/
def sampleToInt16 (x : ℚ) : Int :=
  let s := max (-1) (min 1 x)
  toInt16 (if s < 0 then s * 32768 else s * 32767)

/-- The `Int16Array` produced by `createPcmBlob` from the float samples. -/
def createPcmBlobInt16 (data : List ℚ) : List Int :=
  data.map sampleToInt16

/-- Little-endian byte pair of one stored 16-bit element, as read back from
`new Uint8Array(int16.buffer)`. -/
def int16LEBytes (v : Int) : List Nat :=
  [(v % 65536).toNat % 256, (v % 65536).toNat / 256]

/-- `createPcmBlob(data, sampleRate)`: clamp/scale to 16-bit, view the
buffer as little-endian bytes, base64 them, and tag with the rate. -/
def createPcmBlob (data : List ℚ) (sampleRate : Nat) : String × String :=
  ((((createPcmBlobInt16 data).map int16LEBytes).flatten |> base64Encode
      |> String.mk),
   "audio/pcm;rate=" ++ toString sampleRate)

/-- Modelled from the spec: `decodeAudioData` (utils/audio, not under src/).
Per §4.2 the encoder scales floats in [-1,1] to signed 16-bit; the decoder
maps each 16-bit value v back to the float v / 32768. Only its value on a
silent block matters for the stated round-trip property. -/
def decodeAudioData (vs : List Int) : List ℚ :=
  vs.map (fun (v : Int) => (v : ℚ) / 32768)

/-- WebAudio `stop()` on a source node, in the worst case for the caller:
stopping a node whose playback already finished may raise. -/
def nodeStop (s : AudioBufferSourceNode) : Except String Unit :=
  if s.finished then Except.error "InvalidStateError" else Except.ok ()

/-- `try { s.stop(); } catch (e) {}` from `stopAllAudio`: any outcome of the
stop call is absorbed. -/
def tryStopNode (s : AudioBufferSourceNode) : Unit :=
  match nodeStop s with
  | Except.ok _ => ()
  | Except.error _ => ()

/-- `stopAllAudio()`: try-stop every live source, clear the set, reset
`nextStartTime` to the output clock when the output context exists, and
report volume 0. -/
def stopAllAudio (c : LiveClient) : LiveClient × List Event :=
  let _ := c.sources.map tryStopNode
  let c1 : LiveClient := { c with sources := [] }
  let c2 : LiveClient :=
    match c1.outputAudioContext with
    | some ctx => { c1 with nextStartTime := ctx.currentTime }
    | none => c1
  (c2, [Event.volume 0])

/-- `disconnect()`: stop all audio, then release processor, input source,
both audio contexts, the client object and the session handle. Closing a
context is modelled as dropping it (the null-guard pattern in the source
closes each resource at most once). No state-change notification is made
here. -/
def disconnect (c : LiveClient) : LiveClient × List Event :=
  let p := stopAllAudio c
  ({ p.1 with
      processor := false
      inputSource := false
      inputAudioContext := none
      outputAudioContext := none
      ai := false
      currentSession := false },
   p.2)

/-- Outcome of `await navigator.mediaDevices.getUserMedia(...)`. -/
inductive MicOutcome where
  | granted
  | denied (message : String)
deriving DecidableEq, Repr

/-- `connect()`: unconditionally notify CONNECTING, then (inside `try`)
re-create the client object and both audio contexts, request the
microphone, and on success store the pending `ai.live.connect` promise.
The `catch` branch (modelled for a getUserMedia denial, the awaited call
inside the `try`) logs to the console, notifies ERROR, emits an error
LogEntry (the error message, or the fallback text Connection failed when it
is empty) and calls `disconnect`. -/
def connect (c : LiveClient) (now : Nat) (mic : MicOutcome) :
    LiveClient × List Event :=
  let evs0 := [Event.stateChange ConnectionState.CONNECTING]
  let c1 : LiveClient :=
    { c with
        ai := true
        inputAudioContext := some { currentTime := 0 }
        outputAudioContext := some { currentTime := 0 } }
  match mic with
  | MicOutcome.granted =>
      ({ c1 with currentSession := true }, evs0)
  | MicOutcome.denied msg =>
      let m := if msg = "" then "Connection failed" else msg
      let p := disconnect c1
      (p.1,
       evs0 ++
         [Event.consoleError "Connection failed",
          Event.stateChange ConnectionState.ERROR,
          Event.log (makeLog now "error" m)] ++ p.2)

/-- `sendText(text)`: if a session handle exists, await it; on resolution
append the user LogEntry, then forward the UTF-8 text base64-encoded with a
`text/plain` tag; on rejection the `catch` logs to the console and appends
an error LogEntry. With no session handle nothing happens. The client
state is unchanged in every case. -/
def sendText (c : LiveClient) (now : Nat) (text : String)
    (sessionAwait : Except String Unit) : List Event :=
  if c.currentSession then
    match sessionAwait with
    | Except.ok _ =>
        [Event.log (makeLog now "user" text),
         Event.sendRealtimeInput "text/plain"
           (String.mk (base64Encode (textEncode text)))]
    | Except.error m =>
        [Event.consoleError "Failed to send text",
         Event.log (makeLog now "error" ("Failed to send text: " ++ m))]
  else []

/-- The per-call result value computed inside the try block of
`handleToolCall`:
the ok-status default, overwritten by the matching branch, or by
`{error: e.message}` when the browser call in the branch throws. -/
def toolResultOf (fc : FunctionCall) (handlerEnv : Except String Unit)
    (nowString : String) : ToolResult :=
  if fc.name = "openWebsite" then
    match handlerEnv with
    | Except.ok _ => ToolResult.result ("Opened " ++ fc.getArg "url")
    | Except.error m => ToolResult.error m
  else if fc.name = "setScreenMode" then
    match handlerEnv with
    | Except.ok _ => ToolResult.result ("Set mode to " ++ fc.getArg "mode")
    | Except.error m => ToolResult.error m
  else if fc.name = "getSystemTime" then
    match handlerEnv with
    | Except.ok _ => ToolResult.time nowString
    | Except.error m => ToolResult.error m
  else ToolResult.statusOk

/-- The side effects performed by the matching handler branch when its
browser call succeeds (none when it throws, none for unknown names). -/
def toolActionEvents (fc : FunctionCall) (handlerEnv : Except String Unit)
    (nowString : String) : List Event :=
  if fc.name = "openWebsite" then
    match handlerEnv with
    | Except.ok _ =>
        [Event.windowOpen (fc.getArg "url"),
         Event.toolAction ("Opened " ++ fc.getArg "url")]
    | Except.error _ => []
  else if fc.name = "setScreenMode" then
    match handlerEnv with
    | Except.ok _ =>
        [Event.dispatchThemeChange (fc.getArg "mode"),
         Event.toolAction (fc.getArg "mode" ++ " mode active")]
    | Except.error _ => []
  else if fc.name = "getSystemTime" then
    match handlerEnv with
    | Except.ok _ => [Event.toolAction ("Time: " ++ nowString)]
    | Except.error _ => []
  else []

/-- One iteration of the `for (const fc of toolCall.functionCalls)` loop:
emit the tool-tagged LogEntry, run the handler branch inside `try/catch`,
then send the response through `this.currentSession?.then(...).catch(() => {})`
— which sends nothing when the handle is null or the promise rejects. -/
def handleOneToolCall (c : LiveClient) (fc : FunctionCall)
    (handlerEnv : Except String Unit) (sessionAwait : Except String Unit)
    (nowString : String) (now : Nat) : List Event :=
  let logEv := Event.log
    { id := fc.id, timestamp := now, source := "ai",
      message := "Executing: " ++ fc.name, type := some "tool" }
  let sendEvs :=
    if c.currentSession then
      match sessionAwait with
      | Except.ok _ =>
          [Event.sendToolResponse fc.id fc.name
            (toolResultOf fc handlerEnv nowString)]
      | Except.error _ => []
    else []
  logEv :: toolActionEvents fc handlerEnv nowString ++ sendEvs

/-- `handleToolCall(toolCall)`: process every function call of the request
in order. -/
def handleToolCall (c : LiveClient)
    (calls : List (FunctionCall × Except String Unit))
    (sessionAwait : Except String Unit) (nowString : String) (now : Nat) :
    List Event :=
  (calls.map (fun p => handleOneToolCall c p.1 p.2 sessionAwait nowString now)).flatten

/-- `playAudio(buffer)`: no-op without an output context; otherwise clamp
`nextStartTime` up to the output clock, start the source there, advance
`nextStartTime` by the buffer duration and register the source in the
live-source set. (`source.onended` removal is not needed by the claims.) -/
def playAudio (c : LiveClient) (buffer : AudioBuffer) :
    LiveClient × List Event :=
  match c.outputAudioContext with
  | none => (c, [])
  | some ctx =>
      let currentTime := ctx.currentTime
      let nst := if c.nextStartTime < currentTime then currentTime else c.nextStartTime
      ({ c with
          nextStartTime := nst + buffer.duration
          sources := c.sources ++
            [{ startTime := nst, duration := buffer.duration, finished := false }] },
       [Event.sourceStart nst])

/-- `handleMessage(message)`: inline audio (volume 0.5, decode, play or
console-log the decode error), then the `interrupted` branch (stop all
audio and log "Interrupted."), then `turnComplete` (volume 0), then the
tool call. -/
def handleMessage (c : LiveClient) (msg : LiveServerMessage) (env : MsgEnv) :
    LiveClient × List Event :=
  let step1 : LiveClient × List Event :=
    match msg.inlineData, c.outputAudioContext with
    | some _, some _ =>
        let pre := [Event.volume (1 / 2)]
        match env.decodeResult with
        | Except.ok buffer =>
            let p := playAudio c buffer
            (p.1, pre ++ p.2)
        | Except.error _ =>
            (c, pre ++ [Event.consoleError "Audio decode error"])
    | _, _ => (c, [])
  let step2 : LiveClient × List Event :=
    if msg.interrupted then
      let p := stopAllAudio step1.1
      (p.1, p.2 ++ [Event.log (makeLog env.now "system" "Interrupted.")])
    else (step1.1, [])
  let evs3 := if msg.turnComplete then [Event.volume 0] else []
  let evs4 :=
    match msg.toolCall with
    | some calls => handleToolCall step2.1 calls env.sessionAwait env.nowString env.now
    | none => []
  (step2.1, step1.2 ++ step2.2 ++ evs3 ++ evs4)

/-- Environment action between inbound payloads: the output clock has
advanced to `t` by the time the next payload is handled. -/
def setOutputClock (c : LiveClient) (t : ℚ) : LiveClient :=
  { c with outputAudioContext := c.outputAudioContext.map (fun _ => { currentTime := t }) }

/-- A run of the playback scheduler over a sequence of decoded buffers, the
output clock reading `t` at each arrival; returns the final client and the
concatenated event trace. -/
def scheduleRun (c : LiveClient) : List (ℚ × AudioBuffer) → LiveClient × List Event
  | [] => (c, [])
  | (t, b) :: rest =>
      let p := playAudio (setOutputClock c t) b
      let q := scheduleRun p.1 rest
      (q.1, p.2 ++ q.2)

/-- The scheduled start times occurring in an event trace, in order. -/
def startsOfEvents : List Event → List ℚ
  | [] => []
  | Event.sourceStart t :: rest => t :: startsOfEvents rest
  | _ :: rest => startsOfEvents rest

/-- The LogEntries occurring in an event trace, in order. -/
def logsOf : List Event → List LogEntry
  | [] => []
  | Event.log e :: rest => e :: logsOf rest
  | _ :: rest => logsOf rest

/-- The tool responses sent in an event trace, in order: (id, name, result). -/
def toolResponses : List Event → List (String × String × ToolResult)
  | [] => []
  | Event.sendToolResponse i n r :: rest => (i, n, r) :: toolResponses rest
  | _ :: rest => toolResponses rest

/-- The connection state reported after a trace, starting from `s0` (the
fold the `onStateChange` subscription of the UI performs). -/
def lastState (s0 : ConnectionState) : List Event → ConnectionState
  | [] => s0
  | Event.stateChange s :: rest => lastState s rest
  | _ :: rest => lastState s0 rest

/-! ### Helper lemmas -/

theorem toInt16_eq_of_range (q : ℚ) (h1 : -32768 ≤ jsTrunc q)
    (h2 : jsTrunc q ≤ 32767) : toInt16 q = jsTrunc q := by
  unfold toInt16
  rw [Int.emod_eq_of_lt (by linarith) (by linarith)]
  ring

theorem clamp_mem (x : ℚ) : -1 ≤ max (-1) (min 1 x) ∧ max (-1) (min 1 x) ≤ 1 :=
  ⟨le_max_left _ _, max_le (by norm_num) (min_le_left _ _)⟩

theorem scaled_bounds (x : ℚ) :
    -32768 ≤ (if max (-1) (min 1 x) < 0 then max (-1) (min 1 x) * 32768
              else max (-1) (min 1 x) * 32767)
    ∧ (if max (-1) (min 1 x) < 0 then max (-1) (min 1 x) * 32768
       else max (-1) (min 1 x) * 32767) ≤ 32767 := by
  obtain ⟨h1, h2⟩ := clamp_mem x
  split_ifs with hs
  · constructor <;> nlinarith
  · constructor <;> nlinarith

theorem jsTrunc_bounds (q : ℚ) (h1 : -32768 ≤ q) (h2 : q ≤ 32767) :
    -32768 ≤ jsTrunc q ∧ jsTrunc q ≤ 32767 := by
  unfold jsTrunc
  split_ifs with hq
  · constructor
    · have hf : (⌊-q⌋ : ℚ) ≤ 32768 := le_trans (Int.floor_le _) (by linarith)
      have : ⌊-q⌋ ≤ (32768 : ℤ) := by exact_mod_cast hf
      omega
    · have : (0 : ℤ) ≤ ⌊-q⌋ := Int.floor_nonneg.mpr (by linarith)
      omega
  · constructor
    · have : (0 : ℤ) ≤ ⌊q⌋ := Int.floor_nonneg.mpr (le_of_not_lt hq)
      omega
    · have hf : (⌊q⌋ : ℚ) ≤ 32767 := le_trans (Int.floor_le _) h2
      exact_mod_cast hf

theorem sampleToInt16_eq_trunc (x : ℚ) :
    sampleToInt16 x = jsTrunc (if max (-1) (min 1 x) < 0
      then max (-1) (min 1 x) * 32768 else max (-1) (min 1 x) * 32767) := by
  obtain ⟨hl, hu⟩ := scaled_bounds x
  obtain ⟨tl, tu⟩ := jsTrunc_bounds _ hl hu
  unfold sampleToInt16
  exact toInt16_eq_of_range _ tl tu

theorem sampleToInt16_range (x : ℚ) :
    -32768 ≤ sampleToInt16 x ∧ sampleToInt16 x ≤ 32767 := by
  rw [sampleToInt16_eq_trunc]
  obtain ⟨hl, hu⟩ := scaled_bounds x
  exact jsTrunc_bounds _ hl hu

theorem sampleToInt16_zero : sampleToInt16 0 = 0 := by
  norm_num [sampleToInt16, toInt16, jsTrunc]

theorem stopAllAudio_eq (c : LiveClient) (ctx : AudioContextModel)
    (h : c.outputAudioContext = some ctx) :
    stopAllAudio c =
      ({ c with sources := [], nextStartTime := ctx.currentTime },
       [Event.volume 0]) := by
  simp [stopAllAudio, h]

theorem playAudio_step (c : LiveClient) (ctx : AudioContextModel) (t : ℚ)
    (b : AudioBuffer) (hctx : c.outputAudioContext = some ctx) :
    playAudio (setOutputClock c t) b =
      ({ c with
          outputAudioContext := some { currentTime := t }
          nextStartTime := max t c.nextStartTime + b.duration
          sources := c.sources ++
            [{ startTime := max t c.nextStartTime, duration := b.duration,
               finished := false }] },
       [Event.sourceStart (max t c.nextStartTime)]) := by
  have hmax : (if c.nextStartTime < t then t else c.nextStartTime)
      = max t c.nextStartTime := by
    rcases lt_or_le c.nextStartTime t with h | h
    · simp [h, max_eq_left (le_of_lt h)]
    · simp [not_lt.mpr h, max_eq_right h]
  simp [setOutputClock, playAudio, hctx, hmax]

theorem startsOfEvents_append (a b : List Event) :
    startsOfEvents (a ++ b) = startsOfEvents a ++ startsOfEvents b := by
  induction a with
  | nil => rfl
  | cons e rest ih => cases e <;> simp [startsOfEvents, ih]

theorem playAudio_start_ge (c : LiveClient) (ctx : AudioContextModel) (t : ℚ)
    (b : AudioBuffer) (h : c.outputAudioContext = some ctx) :
    ∀ x ∈ startsOfEvents (playAudio (setOutputClock c t) b).2,
      c.nextStartTime ≤ x := by
  rw [playAudio_step c ctx t b h]
  intro x hx
  simp [startsOfEvents] at hx
  subst hx
  exact le_max_right _ _

/-! ### Concrete fixtures used by counterexamples and witnesses -/

/-- A client in the middle of a connected session: both contexts live, a
finished and a live playback source, a session handle present. -/
def connectedClient : LiveClient :=
  { ai := true
    inputAudioContext := some { currentTime := 0 }
    outputAudioContext := some { currentTime := 5 }
    inputSource := true
    processor := true
    nextStartTime := 7
    sources := [{ startTime := 2, duration := 3, finished := true },
                { startTime := 5, duration := 2, finished := false }]
    currentSession := true }

/-- An inbound message whose audio payload fails to decode. -/
def decodeFailMsg : LiveServerMessage := { inlineData := some "AAAA" }

/-- Environment in which `decodeAudioData` rejects. -/
def decodeFailEnv : MsgEnv :=
  { now := 1000, nowString := "t", decodeResult := Except.error "EncodingError",
    sessionAwait := Except.ok () }

/-- A bare interrupted message. -/
def interruptMsg : LiveServerMessage := { interrupted := true }

/-- Environment at millisecond 1000 (no audio involved). -/
def envAt1000 : MsgEnv :=
  { now := 1000, nowString := "t", decodeResult := Except.error "unused",
    sessionAwait := Except.ok () }

/-! ### Claim theorems -/

/-- Claim C4: the 16-bit PCM encoder preserves the sample count; each sample
is clamped to [-1, 1] and then scaled by 32768 (negative) or 32767
(non-negative) and truncated, so every encoded value lies in
[-32768, 32767]; encoding a silent block and decoding it back yields all
zeros. -/
theorem pcm_encoder_props (data : List ℚ) (n : Nat) :
    (createPcmBlobInt16 data).length = data.length
    ∧ (∀ v ∈ createPcmBlobInt16 data, -32768 ≤ v ∧ v ≤ 32767)
    ∧ (∀ x : ℚ, sampleToInt16 x = jsTrunc (if max (-1) (min 1 x) < 0
        then max (-1) (min 1 x) * 32768 else max (-1) (min 1 x) * 32767))
    ∧ decodeAudioData (createPcmBlobInt16 (List.replicate n 0))
        = List.replicate n 0 := by
  refine ⟨by simp [createPcmBlobInt16], ?_, sampleToInt16_eq_trunc, ?_⟩
  · intro v hv
    simp [createPcmBlobInt16] at hv
    obtain ⟨x, _, hx⟩ := hv
    rw [← hx]
    exact sampleToInt16_range x
  · rw [show createPcmBlobInt16 (List.replicate n 0) = List.replicate n 0 by
        simp [createPcmBlobInt16, List.map_replicate, sampleToInt16_zero]]
    rw [decodeAudioData, List.map_replicate]
    norm_num

/-- Claim C10: for every inbound message carrying an audio payload (with a
live output context), the first emitted effect is the loudness callback
with the constant 0.5, before the payload is decoded and independent of
the payload content and of the decode outcome. -/
theorem inbound_volume_constant (c : LiveClient) (msg : LiveServerMessage)
    (env : MsgEnv) (d : String) (ctx : AudioContextModel)
    (hd : msg.inlineData = some d) (hctx : c.outputAudioContext = some ctx) :
    (handleMessage c msg env).2.head? = some (Event.volume (1 / 2)) := by
  unfold handleMessage
  rw [hd, hctx]
  rcases env.decodeResult with e | b <;> simp [playAudio, hctx]

/-- Witness for C10 at a concrete client and payload. -/
theorem inbound_volume_constant_witness :
    decodeFailMsg.inlineData = some "AAAA"
    ∧ connectedClient.outputAudioContext = some { currentTime := 5 }
    ∧ (handleMessage connectedClient decodeFailMsg decodeFailEnv).2.head?
        = some (Event.volume (1 / 2)) :=
  ⟨rfl, rfl,
   inbound_volume_constant connectedClient decodeFailMsg decodeFailEnv
     "AAAA" { currentTime := 5 } rfl rfl⟩

/-- Claim C7: with a session handle present, `sendText` appends the
user-source LogEntry carrying the text and only then forwards the text
(base64 of its UTF-8 bytes, tagged text/plain) over the transport; when
the awaited connection rejects, no send occurs and the only user-visible
effect is a single error LogEntry — nothing is raised to the caller. -/
theorem sendText_logs_then_sends (c : LiveClient) (now : Nat) (text m : String)
    (hs : c.currentSession = true) :
    sendText c now text (Except.ok ()) =
      [Event.log (makeLog now "user" text),
       Event.sendRealtimeInput "text/plain"
         (String.mk (base64Encode (textEncode text)))]
    ∧ sendText c now text (Except.error m) =
      [Event.consoleError "Failed to send text",
       Event.log (makeLog now "error" ("Failed to send text: " ++ m))] := by
  constructor <;> simp [sendText, hs]

/-- Witness for C7 at a concrete client, text and rejection message. -/
theorem sendText_logs_then_sends_witness :
    connectedClient.currentSession = true
    ∧ (sendText connectedClient 1000 "hello" (Except.ok ()) =
        [Event.log (makeLog 1000 "user" "hello"),
         Event.sendRealtimeInput "text/plain"
           (String.mk (base64Encode (textEncode "hello")))]
      ∧ sendText connectedClient 1000 "hello" (Except.error "closed") =
        [Event.consoleError "Failed to send text",
         Event.log (makeLog 1000 "error" "Failed to send text: closed")]) :=
  ⟨rfl, sendText_logs_then_sends connectedClient 1000 "hello" "closed" rfl⟩

/-- Claim C5 counterexample: `disconnect()` emits no state-change
notification at all, so a session whose last reported state is Connected
is still reported Connected after `disconnect()` returns — the state is
not forced to Disconnected. -/
theorem disconnect_keeps_reported_state :
    lastState ConnectionState.CONNECTED (disconnect connectedClient).2
        ≠ ConnectionState.DISCONNECTED
    ∧ (disconnect connectedClient).2 = [Event.volume 0] := by
  constructor
  · decide
  · rfl

/-- Claim C5 (amended): `disconnect()` is safe from any state and
idempotent on the client: afterwards no live playback sources remain, the
capture graph and both audio contexts are released, the client object and
transport handle are null, a second call leaves the state unchanged (and
re-emits only the volume-0 report), and no state-change notification is
emitted (callers and transport callbacks perform the Disconnected
transition themselves). -/
theorem disconnect_props (c : LiveClient) :
    (disconnect c).1.sources = []
    ∧ (disconnect c).1.processor = false
    ∧ (disconnect c).1.inputSource = false
    ∧ (disconnect c).1.inputAudioContext = none
    ∧ (disconnect c).1.outputAudioContext = none
    ∧ (disconnect c).1.ai = false
    ∧ (disconnect c).1.currentSession = false
    ∧ disconnect (disconnect c).1 = ((disconnect c).1, [Event.volume 0])
    ∧ (∀ s0 : ConnectionState, lastState s0 (disconnect c).2 = s0) := by
  obtain ⟨a, iac, oac, is, pr, nst, srcs, cs⟩ := c
  cases oac <;>
    simp [disconnect, stopAllAudio, lastState]

/-- Claim C6 counterexample: calling `connect()` while the session is
already Connected is not a no-op: the code has no guard, so a new
Connecting transition is emitted and the audio contexts are re-created. -/
theorem connect_not_noop_when_connected :
    lastState ConnectionState.CONNECTED
        (connect connectedClient 1000 MicOutcome.granted).2
      = ConnectionState.CONNECTING
    ∧ (connect connectedClient 1000 MicOutcome.granted).1.outputAudioContext
        ≠ connectedClient.outputAudioContext := by
  constructor
  · rfl
  · decide

/-- Claim C6 (amended): `connect()` is unguarded — from any client state it
first emits a Connecting transition, re-creates the client object and both
audio contexts, and (when the microphone is granted) installs a fresh
transport handle; callers must avoid invoking it while already
Connecting/Connected. -/
theorem connect_always_transitions (c : LiveClient) (now : Nat)
    (mic : MicOutcome) :
    (connect c now mic).2.head?
        = some (Event.stateChange ConnectionState.CONNECTING)
    ∧ (connect c now MicOutcome.granted).1.currentSession = true
    ∧ (connect c now MicOutcome.granted).1.ai = true
    ∧ (connect c now MicOutcome.granted).1.inputAudioContext
        = some { currentTime := 0 }
    ∧ (connect c now MicOutcome.granted).1.outputAudioContext
        = some { currentTime := 0 } := by
  rcases mic with _ | m <;> simp [connect]

/-- Claim C8 counterexample: a failed audio decode emits no LogEntry at
all — the code only writes to the developer console — so the claimed
"exactly one LogEntry of source error" is violated (zero are produced). -/
theorem decode_failure_emits_no_logentry :
    logsOf (handleMessage connectedClient decodeFailMsg decodeFailEnv).2 = []
    ∧ (handleMessage connectedClient decodeFailMsg decodeFailEnv).2
        = [Event.volume (1 / 2), Event.consoleError "Audio decode error"] := by
  constructor <;> rfl

/-- Claim C8 (amended): when decoding an inbound audio payload fails, the
failure is reported only via `console.error` (no LogEntry is emitted), the
payload is dropped without scheduling anything, and the session and
scheduler continue: the client state is unchanged and no exception escapes
the message handler. -/
theorem decode_failure_drops_payload (c : LiveClient) (msg : LiveServerMessage)
    (env : MsgEnv) (d : String) (ctx : AudioContextModel) (e : String)
    (hd : msg.inlineData = some d) (hctx : c.outputAudioContext = some ctx)
    (hdec : env.decodeResult = Except.error e)
    (hni : msg.interrupted = false) (hnt : msg.turnComplete = false)
    (hnc : msg.toolCall = none) :
    handleMessage c msg env =
      (c, [Event.volume (1 / 2), Event.consoleError "Audio decode error"]) := by
  simp [handleMessage, hd, hctx, hdec, hni, hnt, hnc]

/-- Witness for the amended C8 at a concrete client and failing payload. -/
theorem decode_failure_drops_payload_witness :
    decodeFailMsg.inlineData = some "AAAA"
    ∧ connectedClient.outputAudioContext = some { currentTime := 5 }
    ∧ decodeFailEnv.decodeResult = Except.error "EncodingError"
    ∧ handleMessage connectedClient decodeFailMsg decodeFailEnv =
        (connectedClient,
         [Event.volume (1 / 2), Event.consoleError "Audio decode error"]) :=
  ⟨rfl, rfl, rfl,
   decode_failure_drops_payload connectedClient decodeFailMsg decodeFailEnv
     "AAAA" { currentTime := 5 } "EncodingError" rfl rfl rfl rfl rfl rfl⟩

/-- Claim C9: LogEntry ids are `Date.now().toString()`, so two distinct
entries produced within the same millisecond share their id. Concretely,
a `sendText("hello")` and an inbound interrupted message handled at the
same clock value 1000 yield a user entry and a system entry that are
different LogEntries with the identical id "1000". -/
theorem duplicate_log_ids :
    (logsOf (sendText connectedClient 1000 "hello" (Except.ok ()))).head?
        = some (makeLog 1000 "user" "hello")
    ∧ logsOf (handleMessage connectedClient interruptMsg envAt1000).2
        = [makeLog 1000 "system" "Interrupted."]
    ∧ (makeLog 1000 "user" "hello").id = (makeLog 1000 "system" "Interrupted.").id
    ∧ makeLog 1000 "user" "hello" ≠ makeLog 1000 "system" "Interrupted." := by
  refine ⟨rfl, rfl, rfl, ?_⟩
  decide

theorem future_start_ge (c' : LiveClient) (ctx : AudioContextModel)
    (h1 : c'.outputAudioContext = some ctx)
    (h2 : c'.nextStartTime = ctx.currentTime) :
    ∀ t b, ∀ x ∈ startsOfEvents (playAudio (setOutputClock c' t) b).2,
      ctx.currentTime ≤ x := by
  intro t b x hx
  have := playAudio_start_ge c' ctx t b h1 x hx
  rwa [h2] at this

/-- Claim C2: receiving an interrupted signal stops every live source
(stopping an already-finished one cannot raise), empties the live-source
set, resets `nextStartTime` to the current output clock, emits a system
LogEntry and reports loudness 0; any buffer scheduled afterwards starts at
or after the clock at the moment of interruption. -/
theorem interrupted_resets (c : LiveClient) (msg : LiveServerMessage)
    (env : MsgEnv) (ctx : AudioContextModel)
    (hctx : c.outputAudioContext = some ctx) (hint : msg.interrupted = true) :
    (handleMessage c msg env).1.sources = []
    ∧ (handleMessage c msg env).1.nextStartTime = ctx.currentTime
    ∧ (handleMessage c msg env).1.outputAudioContext = some ctx
    ∧ Event.log (makeLog env.now "system" "Interrupted.") ∈ (handleMessage c msg env).2
    ∧ Event.volume 0 ∈ (handleMessage c msg env).2
    ∧ (∀ s : AudioBufferSourceNode, tryStopNode s = ())
    ∧ (∀ t b, ∀ x ∈ startsOfEvents
          (playAudio (setOutputClock (handleMessage c msg env).1 t) b).2,
        ctx.currentTime ≤ x) := by
  have key : (handleMessage c msg env).1.sources = []
      ∧ (handleMessage c msg env).1.nextStartTime = ctx.currentTime
      ∧ (handleMessage c msg env).1.outputAudioContext = some ctx
      ∧ Event.log (makeLog env.now "system" "Interrupted.")
          ∈ (handleMessage c msg env).2
      ∧ Event.volume 0 ∈ (handleMessage c msg env).2 := by
    unfold handleMessage
    rcases hdata : msg.inlineData with _ | d
    · simp [hdata, hctx, hint, stopAllAudio]
    · rcases hdec : env.decodeResult with e | b
      · simp [hdata, hctx, hint, hdec, stopAllAudio]
      · simp [hdata, hctx, hint, hdec, stopAllAudio, playAudio]
  obtain ⟨h1, h2, h3, h4, h5⟩ := key
  exact ⟨h1, h2, h3, h4, h5, fun s => rfl, future_start_ge _ ctx h3 h2⟩

/-- Witness for C2 at a concrete interrupted message and a client holding
a finished source and a live source. -/
theorem interrupted_resets_witness :
    connectedClient.outputAudioContext = some { currentTime := 5 }
    ∧ interruptMsg.interrupted = true
    ∧ ((handleMessage connectedClient interruptMsg envAt1000).1.sources = []
      ∧ (handleMessage connectedClient interruptMsg envAt1000).1.nextStartTime = 5
      ∧ (handleMessage connectedClient interruptMsg envAt1000).1.outputAudioContext
          = some { currentTime := 5 }
      ∧ Event.log (makeLog 1000 "system" "Interrupted.")
          ∈ (handleMessage connectedClient interruptMsg envAt1000).2
      ∧ Event.volume 0 ∈ (handleMessage connectedClient interruptMsg envAt1000).2
      ∧ (∀ s : AudioBufferSourceNode, tryStopNode s = ())
      ∧ (∀ t b, ∀ x ∈ startsOfEvents
            (playAudio (setOutputClock
              (handleMessage connectedClient interruptMsg envAt1000).1 t) b).2,
          (5 : ℚ) ≤ x)) :=
  ⟨rfl, rfl,
   interrupted_resets connectedClient interruptMsg envAt1000
     { currentTime := 5 } rfl rfl⟩

theorem scheduleRun_head_start (c : LiveClient) (ctx : AudioContextModel)
    (pairs : List (ℚ × AudioBuffer)) (hctx : c.outputAudioContext = some ctx) :
    ∀ s ∈ (startsOfEvents (scheduleRun c pairs).2).head?, c.nextStartTime ≤ s := by
  cases pairs with
  | nil => intro s hs; simp [scheduleRun, startsOfEvents] at hs
  | cons p rest =>
      obtain ⟨t, b⟩ := p
      intro s hs
      simp only [scheduleRun] at hs
      rw [playAudio_step c ctx t b hctx] at hs
      simp [startsOfEvents_append, startsOfEvents] at hs
      rw [← hs]
      exact le_max_right _ _

theorem scheduleRun_chain (pairs : List (ℚ × AudioBuffer)) :
    ∀ (c : LiveClient) (ctx : AudioContextModel),
      c.outputAudioContext = some ctx →
      (∀ p ∈ pairs, 0 ≤ p.2.duration) →
      (startsOfEvents (scheduleRun c pairs).2).length = pairs.length
      ∧ List.Chain' (fun a b => a ≤ b) (startsOfEvents (scheduleRun c pairs).2)
      ∧ List.Chain' (fun a b => a.1 + a.2 ≤ b.1)
          ((startsOfEvents (scheduleRun c pairs).2).zip
            (pairs.map (fun p => p.2.duration))) := by
  induction pairs with
  | nil => intro c ctx hctx hdur; simp [scheduleRun, startsOfEvents]
  | cons p rest ih =>
      obtain ⟨t, b⟩ := p
      intro c ctx hctx hdur
      have hstep := playAudio_step c ctx t b hctx
      have hctx' : (playAudio (setOutputClock c t) b).1.outputAudioContext
          = some { currentTime := t } := by rw [hstep]
      have hnst : (playAudio (setOutputClock c t) b).1.nextStartTime
          = max t c.nextStartTime + b.duration := by rw [hstep]
      have hdur' : ∀ p ∈ rest, 0 ≤ p.2.duration :=
        fun p hp => hdur p (List.mem_cons_of_mem _ hp)
      obtain ⟨ihlen, ihmono, ihchain⟩ :=
        ih (playAudio (setOutputClock c t) b).1 { currentTime := t } hctx' hdur'
      have hd0 : 0 ≤ b.duration := hdur (t, b) (List.mem_cons_self _ _)
      have hhead := scheduleRun_head_start (playAudio (setOutputClock c t) b).1
        { currentTime := t } rest hctx'
      have hevs : startsOfEvents (scheduleRun c ((t, b) :: rest)).2
          = max t c.nextStartTime ::
            startsOfEvents (scheduleRun (playAudio (setOutputClock c t) b).1 rest).2 := by
        simp only [scheduleRun, startsOfEvents_append]
        rw [hstep]
        simp [startsOfEvents]
      rw [hevs]
      refine ⟨by simp [ihlen], ?_, ?_⟩
      · rw [List.chain'_cons']
        refine ⟨?_, ihmono⟩
        intro y hy
        have hys := hhead y hy
        rw [hnst] at hys
        linarith
      · rw [show ((t, b) :: rest).map (fun p => p.2.duration)
            = b.duration :: rest.map (fun p => p.2.duration) from rfl,
          List.zip_cons_cons, List.chain'_cons']
        refine ⟨?_, ihchain⟩
        intro y hy
        cases hs' : startsOfEvents
            (scheduleRun (playAudio (setOutputClock c t) b).1 rest).2 with
        | nil =>
            rw [hs'] at hy
            simp at hy
        | cons s1 tl =>
            cases hrest : rest with
            | nil =>
                rw [hrest] at hs'
                simp [scheduleRun, startsOfEvents] at hs'
            | cons r rs =>
                rw [hs', hrest] at hy
                simp [List.zip_cons_cons] at hy
                have hhd : s1 ∈ (startsOfEvents
                    (scheduleRun (playAudio (setOutputClock c t) b).1 rest).2).head? := by
                  rw [hs']; rfl
                have hge := hhead s1 hhd
                rw [hnst] at hge
                rw [← hy]
                simpa using hge

/-- Claim C1: each inbound buffer is scheduled at
`max(current output clock, nextStartTime)` and `nextStartTime` then
advances by the duration of the buffer; over any uninterrupted sequence of
payloads the computed start times are non-decreasing and each start is at
least the previous start plus the previous duration (no overlap). -/
theorem playAudio_monotone_schedule (c : LiveClient) (ctx : AudioContextModel)
    (pairs : List (ℚ × AudioBuffer))
    (hctx : c.outputAudioContext = some ctx)
    (hdur : ∀ p ∈ pairs, 0 ≤ p.2.duration) :
    (∀ t b, playAudio (setOutputClock c t) b
        = ({ c with
              outputAudioContext := some { currentTime := t }
              nextStartTime := max t c.nextStartTime + b.duration
              sources := c.sources ++
                [{ startTime := max t c.nextStartTime, duration := b.duration,
                   finished := false }] },
           [Event.sourceStart (max t c.nextStartTime)]))
    ∧ (startsOfEvents (scheduleRun c pairs).2).length = pairs.length
    ∧ List.Chain' (fun a b => a ≤ b) (startsOfEvents (scheduleRun c pairs).2)
    ∧ List.Chain' (fun a b => a.1 + a.2 ≤ b.1)
        ((startsOfEvents (scheduleRun c pairs).2).zip
          (pairs.map (fun p => p.2.duration))) := by
  obtain ⟨hlen, hmono, hchain⟩ := scheduleRun_chain pairs c ctx hctx hdur
  exact ⟨fun t b => playAudio_step c ctx t b hctx, hlen, hmono, hchain⟩

/-- A freshly connected client with an empty schedule. -/
def freshClient : LiveClient :=
  { ai := true
    inputAudioContext := some { currentTime := 0 }
    outputAudioContext := some { currentTime := 0 }
    inputSource := true
    processor := true
    nextStartTime := 0
    sources := []
    currentSession := true }

/-- Three inbound buffers: clock readings 0, 1, 5 with durations 2, 3, 1. -/
def threeBuffers : List (ℚ × AudioBuffer) :=
  [(0, { duration := 2 }), (1, { duration := 3 }), (5, { duration := 1 })]

/-- Witness for C1 on a concrete three-buffer arrival sequence. -/
theorem playAudio_monotone_schedule_witness :
    freshClient.outputAudioContext = some { currentTime := 0 }
    ∧ (∀ p ∈ threeBuffers, 0 ≤ p.2.duration)
    ∧ ((∀ t b, playAudio (setOutputClock freshClient t) b
        = ({ freshClient with
              outputAudioContext := some { currentTime := t }
              nextStartTime := max t freshClient.nextStartTime + b.duration
              sources := freshClient.sources ++
                [{ startTime := max t freshClient.nextStartTime,
                   duration := b.duration, finished := false }] },
           [Event.sourceStart (max t freshClient.nextStartTime)]))
      ∧ (startsOfEvents (scheduleRun freshClient threeBuffers).2).length
          = threeBuffers.length
      ∧ List.Chain' (fun a b => a ≤ b)
          (startsOfEvents (scheduleRun freshClient threeBuffers).2)
      ∧ List.Chain' (fun a b => a.1 + a.2 ≤ b.1)
          ((startsOfEvents (scheduleRun freshClient threeBuffers).2).zip
            (threeBuffers.map (fun p => p.2.duration)))) :=
  ⟨rfl, by decide,
   playAudio_monotone_schedule freshClient { currentTime := 0 } threeBuffers
     rfl (by decide)⟩

theorem toolResponses_action_send (fc : FunctionCall)
    (henv : Except String Unit) (nowString : String) (i n : String)
    (r : ToolResult) :
    toolResponses (toolActionEvents fc henv nowString
        ++ [Event.sendToolResponse i n r]) = [(i, n, r)] := by
  unfold toolActionEvents
  split_ifs <;> cases henv <;> simp [toolResponses]

/-- Claim C3: with the session handle live, each function call of a
tool-call request yields exactly one ToolCallResult, correlated by the
id of the request; the tool-tagged LogEntry describing the invocation is the
first emitted effect, before the handler runs; a handler that raises
yields an error-carrying result; an unrecognized tool name yields the
well-formed ok-status result without raising. -/
theorem toolCall_exactly_one_result (c : LiveClient) (fc : FunctionCall)
    (henv : Except String Unit) (saw : Except String Unit)
    (nowString : String) (now : Nat)
    (hs : c.currentSession = true) (hok : saw = Except.ok ()) :
    toolResponses (handleOneToolCall c fc henv saw nowString now)
        = [(fc.id, fc.name, toolResultOf fc henv nowString)]
    ∧ (handleOneToolCall c fc henv saw nowString now).head?
        = some (Event.log
            { id := fc.id, timestamp := now, source := "ai",
              message := "Executing: " ++ fc.name, type := some "tool" })
    ∧ (∀ m, henv = Except.error m →
        (fc.name = "openWebsite" ∨ fc.name = "setScreenMode"
          ∨ fc.name = "getSystemTime") →
        toolResultOf fc henv nowString = ToolResult.error m)
    ∧ ((fc.name ≠ "openWebsite" ∧ fc.name ≠ "setScreenMode"
          ∧ fc.name ≠ "getSystemTime") →
        toolResultOf fc henv nowString = ToolResult.statusOk)
    ∧ handleToolCall c [(fc, henv)] saw nowString now
        = handleOneToolCall c fc henv saw nowString now := by
  subst hok
  refine ⟨?_, ?_, ?_, ?_, ?_⟩
  · simp [handleOneToolCall, hs, toolResponses, toolResponses_action_send]
  · simp [handleOneToolCall]
  · intro m hm hn
    subst hm
    rcases hn with h | h | h <;> simp [toolResultOf, h]
  · intro h
    simp [toolResultOf, h.1, h.2.1, h.2.2]
  · simp [handleToolCall]

/-- A concrete tool-call request for the openWebsite capability. -/
def openCall : FunctionCall :=
  { id := "call-1", name := "openWebsite",
    args := [("url", "https://example.com")] }

/-- Witness for C3 at a concrete tool call on a live session. -/
theorem toolCall_exactly_one_result_witness :
    connectedClient.currentSession = true
    ∧ (toolResponses (handleOneToolCall connectedClient openCall
          (Except.ok ()) (Except.ok ()) "12:00" 1000)
        = [(openCall.id, openCall.name,
            toolResultOf openCall (Except.ok ()) "12:00")]
      ∧ (handleOneToolCall connectedClient openCall (Except.ok ())
            (Except.ok ()) "12:00" 1000).head?
          = some (Event.log
              { id := openCall.id, timestamp := 1000,
                source := "ai", message := "Executing: " ++ openCall.name,
                type := some "tool" })
      ∧ (∀ m, Except.ok () = Except.error m →
          (openCall.name = "openWebsite" ∨ openCall.name = "setScreenMode"
            ∨ openCall.name = "getSystemTime") →
          toolResultOf openCall (Except.ok ()) "12:00" = ToolResult.error m)
      ∧ ((openCall.name ≠ "openWebsite" ∧ openCall.name ≠ "setScreenMode"
            ∧ openCall.name ≠ "getSystemTime") →
          toolResultOf openCall (Except.ok ()) "12:00" = ToolResult.statusOk)
      ∧ handleToolCall connectedClient [(openCall, Except.ok ())]
            (Except.ok ()) "12:00" 1000
          = handleOneToolCall connectedClient openCall (Except.ok ())
              (Except.ok ()) "12:00" 1000) :=
  ⟨rfl,
   toolCall_exactly_one_result connectedClient openCall (Except.ok ())
     (Except.ok ()) "12:00" 1000 rfl rfl⟩

end AryanLive
